import Mathlib

/-!
Shallow embedding of the TradingSimulator core: the time-weighted EMA filter,
the crossover strategy state machine, the position-bounded order manager with
its simulated exchange venue, and the geometric price process of the
simulator.  Timestamps (`std::chrono::nanoseconds`) are modelled as integers
counting nanoseconds; the `double`-valued prices and volumes are modelled as
exact rationals where only field operations and comparisons occur (order
manager, venue) and as real numbers where the code calls `exp`/`sqrt`
(filter, price process).
-/

namespace TradingSim

/-- One market observation, as in `Tick` of `common/Types.h`:
timestamp in nanoseconds, price and volume. -/
structure Tick where
  timestamp : ℤ
  price : ℝ
  volume : ℝ

/-- Nanosecond count converted to seconds, as
`std::chrono::duration<double>(d).count()` does. -/
noncomputable def nsToSec (n : ℤ) : ℝ := (n : ℝ) / 1000000000

/-- State of one `TimeEMA` instance: current smoothed price
(`current_ma_price_`, zero before the first update), timestamp of the last
accepted update (`last_time_update_`, absent before the first update), and
the precomputed constant `neg_inv_tau_ = -1 / tau_seconds`. -/
structure TimeEMA where
  current_ma_price : ℝ
  last_time_update : Option ℤ
  neg_inv_tau : ℝ

/-- `TimeEMA::TimeEMA(period)`: computes `tau_sec` from the nanosecond
period and stores `neg_inv_tau_ = -1.0 / tau_sec`; the smoothed price starts
at `0` and no update time is stored yet. -/
noncomputable def TimeEMA.create (period : ℤ) : TimeEMA :=
  { current_ma_price := 0
    last_time_update := none
    neg_inv_tau := -1 / nsToSec period }

/-- `TimeEMA::update(tick)`: first call adopts the tick price and time;
afterwards a non-positive time delta is a no-op returning the stored value,
and a positive delta applies `alpha = 1 - exp(dt_sec * neg_inv_tau_)` to move
the stored value toward the tick price.  Returns the new filter state and the
returned price. -/
noncomputable def TimeEMA.update (ema : TimeEMA) (tick : Tick) : TimeEMA × ℝ :=
  match ema.last_time_update with
  | none =>
      ({ ema with current_ma_price := tick.price
                  last_time_update := some tick.timestamp }, tick.price)
  | some t0 =>
      let deltaT := tick.timestamp - t0
      if deltaT ≤ 0 then
        (ema, ema.current_ma_price)
      else
        let dt_sec := nsToSec deltaT
        let alpha := 1 - Real.exp (dt_sec * ema.neg_inv_tau)
        let new_price := ema.current_ma_price + alpha * (tick.price - ema.current_ma_price)
        ({ ema with current_ma_price := new_price
                    last_time_update := some tick.timestamp }, new_price)

/-- `TimeEMA::getCurrentPrice()`. -/
def TimeEMA.getCurrentPrice (ema : TimeEMA) : ℝ := ema.current_ma_price

/-- Which filter is currently higher, as `IndicatorHigher` of
`EmaTradingBot.h`; `None` is the initial undetermined state. -/
inductive IndicatorHigher where
  | Fast
  | Slow
  | None
deriving DecidableEq

/-- A directional signal the strategy sends to the order manager, carrying
the triggering tick's price and volume. -/
inductive Signal where
  | buy (price volume : ℝ)
  | sell (price volume : ℝ)

/-- State of the crossover strategy: the `higher_ema_` flag and the two
filters. -/
structure EmaTradingBot where
  higher_ema : IndicatorHigher
  fast_ema : TimeEMA
  slow_ema : TimeEMA

/-- A freshly constructed bot: `higher_ema_ = None`, both filters fresh. -/
noncomputable def EmaTradingBot.create (fast_period slow_period : ℤ) : EmaTradingBot :=
  { higher_ema := IndicatorHigher.None
    fast_ema := TimeEMA.create fast_period
    slow_ema := TimeEMA.create slow_period }

open Classical in
/-- `EmaTradingBot::onTick(tick)`: update the slow then the fast filter,
compare their current prices, emit a buy signal when the fast filter is now
higher and the previous state was `Slow` (a sell signal symmetrically when
it is now not higher and the previous state was `Fast`), and record which
filter is higher.  The emitted call to the order manager is returned as an
optional `Signal`. -/
noncomputable def EmaTradingBot.onTick (bot : EmaTradingBot) (tick : Tick) :
    EmaTradingBot × Option Signal :=
  let slow' := (bot.slow_ema.update tick).1
  let fast' := (bot.fast_ema.update tick).1
  if fast'.getCurrentPrice > slow'.getCurrentPrice then
    (⟨IndicatorHigher.Fast, fast', slow'⟩,
      if bot.higher_ema = IndicatorHigher.Slow then
        some (Signal.buy tick.price tick.volume)
      else none)
  else
    (⟨IndicatorHigher.Slow, fast', slow'⟩,
      if bot.higher_ema = IndicatorHigher.Fast then
        some (Signal.sell tick.price tick.volume)
      else none)

/-- The parameters of the price process used by `Simulator::calculateGBM`:
`average_trend_value` (`mu`), `price_variation` (`sigma`) and the reference
`time_horizon` in nanoseconds. -/
structure GBMConfig where
  average_trend_value : ℝ
  price_variation : ℝ
  time_horizon : ℤ

/-- `Simulator::calculateGBM(deltaT)`: scale the nanosecond increment by the
configured horizon, draw the drift and diffusion terms, and multiply the old
price by the exponential of their sum. -/
noncomputable def calculateGBM (cfg : GBMConfig) (old_price : ℝ) (deltaT : ℤ)
    (Z : ℝ) : ℝ :=
  let t_fraction := (deltaT : ℝ) / (cfg.time_horizon : ℝ)
  let drift_term :=
    (cfg.average_trend_value - 0.5 * cfg.price_variation ^ 2) * t_fraction
  let diffusion_term := cfg.price_variation * Real.sqrt t_fraction * Z
  old_price * Real.exp (drift_term + diffusion_term)

/-- The three random draws one loop iteration of `Simulator::Run` consumes:
the time increment, the standard normal draw and the volume. -/
structure SimDraw where
  deltaT : ℤ
  z : ℝ
  volume : ℝ

/-- One iteration of the loop in `Simulator::Run`: advance the timestamp,
evolve the price from the previous price via `calculateGBM`, and set the
drawn volume. -/
noncomputable def simStep (cfg : GBMConfig) (t : Tick) (d : SimDraw) : Tick :=
  { timestamp := t.timestamp + d.deltaT
    price := calculateGBM cfg t.price d.deltaT d.z
    volume := d.volume }

/-- The list of ticks `Simulator::Run` generates from the baseline tick,
given the sequence of random draws of the whole run. -/
noncomputable def runTicks (cfg : GBMConfig) (t : Tick) :
    List SimDraw → List Tick
  | [] => []
  | d :: ds => simStep cfg t d :: runTicks cfg (simStep cfg t d) ds

/-- Order side, as `OrderSide` of `common/Types.h`. -/
inductive OrderSide where
  | Buy
  | Sell
deriving DecidableEq

/-- Reply status of an order, as `ReplyStatus` of `common/Types.h`. -/
inductive ReplyStatus where
  | Pending
  | Executed
  | Rejected
deriving DecidableEq

/-- An order as the order manager stores it: side, price, volume.  (The
`timestamp` member of the C++ struct is never written or read by the order
manager and is omitted.) -/
structure Order where
  side : OrderSide
  price : ℚ
  volume : ℚ
deriving DecidableEq

/-- The value-initialized `Order` that `std::unordered_map::operator[]`
creates for a missing key: first enumerator side, zero price and volume. -/
def Order.cppDefault : Order := ⟨OrderSide.Buy, 0, 0⟩

/-- `isVolumeEqual` of `common/Types.h`: absolute difference below `1e-9`. -/
def isVolumeEqual (a b : ℚ) : Prop := |a - b| < 1 / 1000000000

instance (a b : ℚ) : Decidable (isVolumeEqual a b) :=
  inferInstanceAs (Decidable (|a - b| < 1 / 1000000000))

/-- One record written by `OrderLogger::writeOrder`: side, price, volume,
status, error text, and the total PnL at the order's price. -/
structure LogRecord where
  side : OrderSide
  price : ℚ
  volume : ℚ
  status : ReplyStatus
  error : String
  total_pnl : ℚ
deriving DecidableEq

/-- A queued venue event, as `ExchangeApi::PendingEvent`: the assigned
identifier and the outcome drawn at submission time.  The stored callback is
always the order manager's reply handler in this program, so it is implicit
in the model. -/
structure PendingEvent where
  id : ℕ
  reply_status : ReplyStatus
deriving DecidableEq

/-- State of the simulated venue, as `ExchangeApi`: the queue of pending
events, the configured rejection percentage, and the next identifier. -/
structure ExchangeApi where
  pending_events : List PendingEvent
  rejection_percent : ℚ
  nextId : ℕ
deriving DecidableEq

/-- `ExchangeApi::ExchangeApi(rejection_percent)`: empty queue, identifiers
start at 1. -/
def ExchangeApi.create (rejection_percent : ℚ) : ExchangeApi :=
  { pending_events := []
    rejection_percent := rejection_percent
    nextId := 1 }

/-- `ExchangeApi::sendOrder`: assign the next identifier, decide the outcome
from the uniform draw `u` in `[0, 100)` of this submission (`Rejected` iff
`u < rejection_percent`), queue the event, and return the identifier. -/
def ExchangeApi.sendOrder (api : ExchangeApi) (u : ℚ) : ℕ × ExchangeApi :=
  let current_id := api.nextId
  let rp_status :=
    if u < api.rejection_percent then ReplyStatus.Rejected
    else ReplyStatus.Executed
  (current_id,
    { api with
        pending_events := api.pending_events ++ [⟨current_id, rp_status⟩]
        nextId := api.nextId + 1 })

/-- State of the order manager: the owned venue, the pending-orders map
(association list keyed by identifier), the emitted order-log records, the
realized PnL, the current position, and the configured position bounds. -/
structure OrderManager where
  exchange_api : ExchangeApi
  orders : List (ℕ × Order)
  log : List LogRecord
  pnl : ℚ
  current_volume : ℚ
  min_position : ℚ
  max_position : ℚ
deriving DecidableEq

/-- `OrderManager::OrderManager(config)`: fresh venue, empty map, zero PnL
and position. -/
def OrderManager.create (rejection_percent min_position max_position : ℚ) :
    OrderManager :=
  { exchange_api := ExchangeApi.create rejection_percent
    orders := []
    log := []
    pnl := 0
    current_volume := 0
    min_position := min_position
    max_position := max_position }

/-- `orders_[id]` read on an `std::unordered_map`: the stored order if the
key is present, otherwise the key is inserted with a value-initialized
order, which is returned. -/
def mapIndex (orders : List (ℕ × Order)) (id : ℕ) : Order × List (ℕ × Order) :=
  match orders.find? (fun q => q.1 == id) with
  | some q => (q.2, orders)
  | none => (Order.cppDefault, orders ++ [(id, Order.cppDefault)])

/-- `orders_.erase(id)`. -/
def eraseOrd (orders : List (ℕ × Order)) (id : ℕ) : List (ℕ × Order) :=
  orders.filter (fun q => q.1 != id)

/-- `orders_[id] = ord` write: replace the entry for `id` or add one. -/
def storeOrd (orders : List (ℕ × Order)) (id : ℕ) (ord : Order) :
    List (ℕ × Order) :=
  eraseOrd orders id ++ [(id, ord)]

/-- `OrderManager::getTotalPnL`: realized PnL marked to market. -/
def OrderManager.getTotalPnL (s : OrderManager) (currentMarketPrice : ℚ) : ℚ :=
  s.pnl + currentMarketPrice * s.current_volume

/-- `OrderManager::fixOrder`: apply an executed order to realized PnL and
position. -/
def OrderManager.fixOrder (s : OrderManager) (ordSide : OrderSide)
    (price volume : ℚ) : OrderManager :=
  { s with
      pnl := s.pnl + price * volume * (if ordSide = OrderSide.Buy then -1 else 1)
      current_volume :=
        s.current_volume + volume * (if ordSide = OrderSide.Buy then 1 else -1) }

/-- `OrderManager::HandleRequestReply`: read the order for `id` from the map
(`orders_[id]`, default-inserting when absent), apply it on `Executed`, emit
one log record, and erase the map entry. -/
def OrderManager.handleRequestReply (s : OrderManager) (id : ℕ)
    (reply_status : ReplyStatus) (reply_error : String) : OrderManager :=
  let read := mapIndex s.orders id
  let order := read.1
  let s1 : OrderManager := { s with orders := read.2 }
  let s2 :=
    if reply_status = ReplyStatus.Executed then
      s1.fixOrder order.side order.price order.volume
    else s1
  let s3 : OrderManager :=
    { s2 with
        log := s2.log ++
          [⟨order.side, order.price, order.volume, reply_status, reply_error,
            s2.getTotalPnL order.price⟩] }
  { s3 with orders := eraseOrd s3.orders id }

/-- `ExchangeApi::poll`, with the callback inlined to the order manager's
reply handler: deliver every queued event in submission order (rejected
events carry the fixed diagnostic message), then clear the queue. -/
def OrderManager.poll (s : OrderManager) : OrderManager :=
  let s1 := s.exchange_api.pending_events.foldl
    (fun acc ev =>
      acc.handleRequestReply ev.id ev.reply_status
        (if ev.reply_status = ReplyStatus.Rejected then "Random rejection"
         else "")) s
  { s1 with exchange_api := { s1.exchange_api with pending_events := [] } }

/-- `OrderManager::onBuySignal(price, volume)`: no-op at (tolerance-equal)
max position or when the clamped volume is non-positive; otherwise submit a
buy of `min(volume, max_position - position)`, register it, and poll.  `u`
is the venue's uniform draw for this submission; the submitted order, if
any, is returned alongside the new state. -/
def OrderManager.onBuySignal (s : OrderManager) (price volume u : ℚ) :
    OrderManager × Option Order :=
  if isVolumeEqual s.current_volume s.max_position then (s, none)
  else
    let remaining_volume := s.max_position - s.current_volume
    let volume_to_buy := min volume remaining_volume
    if volume_to_buy ≤ 0 then (s, none)
    else
      let send := s.exchange_api.sendOrder u
      let ord : Order := ⟨OrderSide.Buy, price, volume_to_buy⟩
      let s1 : OrderManager :=
        { s with
            exchange_api := send.2
            orders := storeOrd s.orders send.1 ord }
      (s1.poll, some ord)

/-- `OrderManager::onSellSignal(price, volume)`: symmetric to the buy case
with headroom `position - min_position`. -/
def OrderManager.onSellSignal (s : OrderManager) (price volume u : ℚ) :
    OrderManager × Option Order :=
  if isVolumeEqual s.current_volume s.min_position then (s, none)
  else
    let room_to_sell := s.current_volume - s.min_position
    let volume_to_sell := min volume room_to_sell
    if volume_to_sell ≤ 0 then (s, none)
    else
      let send := s.exchange_api.sendOrder u
      let ord : Order := ⟨OrderSide.Sell, price, volume_to_sell⟩
      let s1 : OrderManager :=
        { s with
            exchange_api := send.2
            orders := storeOrd s.orders send.1 ord }
      (s1.poll, some ord)

/-- One signal delivered to the order manager, with the venue draw `u` that
its submission (if any) would consume. -/
inductive SignalEvent where
  | buy (price volume u : ℚ)
  | sell (price volume u : ℚ)

/-- Apply one signal to the order manager state. -/
def OrderManager.step (s : OrderManager) (e : SignalEvent) : OrderManager :=
  match e with
  | SignalEvent.buy p v u => (s.onBuySignal p v u).1
  | SignalEvent.sell p v u => (s.onSellSignal p v u).1

/-- Apply a whole sequence of signals. -/
def OrderManager.runTrace (s : OrderManager) (es : List SignalEvent) :
    OrderManager :=
  es.foldl OrderManager.step s

end TradingSim

namespace TradingSim

/-- Every tick generated from a strictly positive baseline price has a
strictly positive price: each step multiplies by a (positive) exponential. -/
theorem runTicks_price_pos (cfg : GBMConfig) (t0 : Tick) (draws : List SimDraw)
    (h0 : 0 < t0.price) : ∀ tk ∈ runTicks cfg t0 draws, 0 < tk.price := by
  induction draws generalizing t0 with
  | nil => simp [runTicks]
  | cons d ds ih =>
      intro tk htk
      have hstep : 0 < (simStep cfg t0 d).price :=
        mul_pos h0 (Real.exp_pos _)
      rcases List.mem_cons.mp htk with h | h
      · rw [h]; exact hstep
      · exact ih (simStep cfg t0 d) hstep tk h

/-- C3: each simulation step computes
`old_price * exp((mu - 0.5*sigma^2)*f + sigma*sqrt(f)*Z)` with
`f = deltaT / time_horizon`, and consequently every tick generated from a
strictly positive baseline price has a strictly positive price, whatever
the real draw `Z` of each step. -/
theorem gbm_step_formula_and_positive (cfg : GBMConfig) (p : ℝ) (dT : ℤ)
    (Z : ℝ) (t0 : Tick) (draws : List SimDraw) (tk : Tick)
    (h0 : 0 < t0.price) (htk : tk ∈ runTicks cfg t0 draws) :
    calculateGBM cfg p dT Z =
      p * Real.exp
        ((cfg.average_trend_value - 0.5 * cfg.price_variation ^ 2) *
            ((dT : ℝ) / (cfg.time_horizon : ℝ)) +
          cfg.price_variation * Real.sqrt ((dT : ℝ) / (cfg.time_horizon : ℝ)) * Z) ∧
    0 < tk.price :=
  ⟨rfl, runTicks_price_pos cfg t0 draws h0 tk htk⟩

/-- Witness for `gbm_step_formula_and_positive`: one concrete step from a
baseline price of 100. -/
theorem gbm_step_formula_and_positive_witness :
    calculateGBM ⟨1/10, 3/20, 1000000000⟩ 100 500000000 1 =
      100 * Real.exp
        (((1:ℝ)/10 - 0.5 * ((3:ℝ)/20) ^ 2) *
            (((500000000 : ℤ) : ℝ) / ((1000000000 : ℤ) : ℝ)) +
          (3:ℝ)/20 * Real.sqrt (((500000000 : ℤ) : ℝ) / ((1000000000 : ℤ) : ℝ)) * 1) ∧
    0 < (simStep ⟨1/10, 3/20, 1000000000⟩ ⟨0, 100, 0⟩ ⟨500000000, 1, 5⟩).price :=
  gbm_step_formula_and_positive ⟨1/10, 3/20, 1000000000⟩ 100 500000000 1
    ⟨0, 100, 0⟩ [⟨500000000, 1, 5⟩]
    (simStep ⟨1/10, 3/20, 1000000000⟩ ⟨0, 100, 0⟩ ⟨500000000, 1, 5⟩)
    (by norm_num) (by simp [runTicks])

/-- A buy signal delivered to a quiescent order manager (no pending map
entries, no queued venue events) leaves it quiescent, preserves the
configured bounds and rejection setting, either leaves the position
unchanged or raises it by the positive clamped volume, is a complete no-op
when nothing is submitted, and writes exactly one log record when something
is. -/
theorem onBuySignal_facts (s : OrderManager) (p v u : ℚ)
    (ho : s.orders = []) (hq : s.exchange_api.pending_events = []) :
    (s.onBuySignal p v u).1.orders = [] ∧
    (s.onBuySignal p v u).1.exchange_api.pending_events = [] ∧
    (s.onBuySignal p v u).1.min_position = s.min_position ∧
    (s.onBuySignal p v u).1.max_position = s.max_position ∧
    ((s.onBuySignal p v u).1.current_volume = s.current_volume ∨
      (0 < min v (s.max_position - s.current_volume) ∧
        (s.onBuySignal p v u).1.current_volume =
          s.current_volume + min v (s.max_position - s.current_volume))) ∧
    ((s.onBuySignal p v u).2 = none → (s.onBuySignal p v u).1 = s) ∧
    ((s.onBuySignal p v u).2 ≠ none →
      (s.onBuySignal p v u).1.log.length = s.log.length + 1) := by
  by_cases h1 : isVolumeEqual s.current_volume s.max_position
  · simp [OrderManager.onBuySignal, h1, ho, hq]
  · by_cases h2 : min v (s.max_position - s.current_volume) ≤ 0
    · simp [OrderManager.onBuySignal, h1, h2, ho, hq]
    · by_cases hu : u < s.exchange_api.rejection_percent <;>
        simp [OrderManager.onBuySignal, h1, h2, OrderManager.poll,
          ExchangeApi.sendOrder, hq, ho, storeOrd, eraseOrd,
          OrderManager.handleRequestReply, mapIndex, List.find?,
          OrderManager.fixOrder, OrderManager.getTotalPnL, hu,
          not_le.mp h2]

/-- Sell-side twin of `onBuySignal_facts`: the position either stays or
drops by the positive clamped volume. -/
theorem onSellSignal_facts (s : OrderManager) (p v u : ℚ)
    (ho : s.orders = []) (hq : s.exchange_api.pending_events = []) :
    (s.onSellSignal p v u).1.orders = [] ∧
    (s.onSellSignal p v u).1.exchange_api.pending_events = [] ∧
    (s.onSellSignal p v u).1.min_position = s.min_position ∧
    (s.onSellSignal p v u).1.max_position = s.max_position ∧
    ((s.onSellSignal p v u).1.current_volume = s.current_volume ∨
      (0 < min v (s.current_volume - s.min_position) ∧
        (s.onSellSignal p v u).1.current_volume =
          s.current_volume - min v (s.current_volume - s.min_position))) ∧
    ((s.onSellSignal p v u).2 = none → (s.onSellSignal p v u).1 = s) ∧
    ((s.onSellSignal p v u).2 ≠ none →
      (s.onSellSignal p v u).1.log.length = s.log.length + 1) := by
  by_cases h1 : isVolumeEqual s.current_volume s.min_position
  · simp [OrderManager.onSellSignal, h1, ho, hq]
  · by_cases h2 : min v (s.current_volume - s.min_position) ≤ 0
    · simp [OrderManager.onSellSignal, h1, h2, ho, hq]
    · by_cases hu : u < s.exchange_api.rejection_percent <;>
        simp [OrderManager.onSellSignal, h1, h2, OrderManager.poll,
          ExchangeApi.sendOrder, hq, ho, storeOrd, eraseOrd,
          OrderManager.handleRequestReply, mapIndex, List.find?,
          OrderManager.fixOrder, OrderManager.getTotalPnL, hu,
          not_le.mp h2]
      exact Or.inr (by ring)

/-- Trace invariant of the order manager: along any sequence of signals
from a quiescent state whose position lies within the configured bounds,
the state stays quiescent, keeps its bounds, and its position never leaves
`[min_position, max_position]`. -/
theorem runTrace_invariant (minp maxp : ℚ) (es : List SignalEvent)
    (s : OrderManager)
    (ho : s.orders = []) (hq : s.exchange_api.pending_events = [])
    (hminf : s.min_position = minp) (hmaxf : s.max_position = maxp)
    (hb1 : minp ≤ s.current_volume) (hb2 : s.current_volume ≤ maxp) :
    (s.runTrace es).orders = [] ∧
    (s.runTrace es).exchange_api.pending_events = [] ∧
    (s.runTrace es).min_position = minp ∧
    (s.runTrace es).max_position = maxp ∧
    minp ≤ (s.runTrace es).current_volume ∧
    (s.runTrace es).current_volume ≤ maxp := by
  induction es generalizing s with
  | nil => exact ⟨ho, hq, hminf, hmaxf, hb1, hb2⟩
  | cons e es ih =>
      have hrw : s.runTrace (e :: es) = (s.step e).runTrace es := by
        simp [OrderManager.runTrace]
      rw [hrw]
      have hfacts :
          (s.step e).orders = [] ∧
          (s.step e).exchange_api.pending_events = [] ∧
          (s.step e).min_position = minp ∧
          (s.step e).max_position = maxp ∧
          minp ≤ (s.step e).current_volume ∧
          (s.step e).current_volume ≤ maxp := by
        cases e with
        | buy p v u =>
            obtain ⟨f1, f2, f3, f4, f5, -, -⟩ := onBuySignal_facts s p v u ho hq
            refine ⟨f1, f2, hminf ▸ f3, hmaxf ▸ f4, ?_, ?_⟩ <;>
              · show _
                rcases f5 with h | ⟨hpos, heq⟩
                · first
                    | exact h ▸ hb1
                    | exact h ▸ hb2
                · have hmr := min_le_right v (s.max_position - s.current_volume)
                  simp only [OrderManager.step]
                  rw [heq]
                  linarith [hmaxf]
        | sell p v u =>
            obtain ⟨f1, f2, f3, f4, f5, -, -⟩ := onSellSignal_facts s p v u ho hq
            refine ⟨f1, f2, hminf ▸ f3, hmaxf ▸ f4, ?_, ?_⟩ <;>
              · show _
                rcases f5 with h | ⟨hpos, heq⟩
                · first
                    | exact h ▸ hb1
                    | exact h ▸ hb2
                · have hmr := min_le_right v (s.current_volume - s.min_position)
                  simp only [OrderManager.step]
                  rw [heq]
                  linarith [hminf]
      exact ih (s.step e) hfacts.1 hfacts.2.1 hfacts.2.2.1 hfacts.2.2.2.1
        hfacts.2.2.2.2.1 hfacts.2.2.2.2.2

/-- What `onBuySignal` submits, for every state: nothing at
(tolerance-equal) max position or non-positive clamped volume, otherwise a
buy of exactly `min(volume, max_position - position)`. -/
theorem onBuySignal_submits (s : OrderManager) (p v u : ℚ) :
    (s.onBuySignal p v u).2 =
      if isVolumeEqual s.current_volume s.max_position ∨
          min v (s.max_position - s.current_volume) ≤ 0 then none
      else some ⟨OrderSide.Buy, p, min v (s.max_position - s.current_volume)⟩ := by
  by_cases h1 : isVolumeEqual s.current_volume s.max_position
  · simp [OrderManager.onBuySignal, h1]
  · by_cases h2 : min v (s.max_position - s.current_volume) ≤ 0 <;>
      simp [OrderManager.onBuySignal, h1, h2]

/-- What `onSellSignal` submits, for every state: nothing at
(tolerance-equal) min position or non-positive clamped volume, otherwise a
sell of exactly `min(volume, position - min_position)`. -/
theorem onSellSignal_submits (s : OrderManager) (p v u : ℚ) :
    (s.onSellSignal p v u).2 =
      if isVolumeEqual s.current_volume s.min_position ∨
          min v (s.current_volume - s.min_position) ≤ 0 then none
      else some ⟨OrderSide.Sell, p, min v (s.current_volume - s.min_position)⟩ := by
  by_cases h1 : isVolumeEqual s.current_volume s.min_position
  · simp [OrderManager.onSellSignal, h1]
  · by_cases h2 : min v (s.current_volume - s.min_position) ≤ 0 <;>
      simp [OrderManager.onSellSignal, h1, h2]

/-- C1: along every sequence of buy/sell signals from a freshly constructed
order manager (position `0`, bounds `minp ≤ 0 ≤ maxp`), the position stays
within `[minp, maxp]`; and at every state a buy (resp. sell) signal submits
an order of volume exactly `min(requested, headroom)` — headroom being
`max_position - position` for a buy and `position - min_position` for a
sell — and submits nothing when that clamped volume is `≤ 0` or the
position already equals the bound within the `1e-9` absolute tolerance. -/
theorem position_bounds_and_clamping (rej minp maxp : ℚ)
    (es : List SignalEvent) (s : OrderManager) (p v u : ℚ)
    (hmin : minp ≤ 0) (hmax : 0 ≤ maxp) :
    minp ≤ ((OrderManager.create rej minp maxp).runTrace es).current_volume ∧
    ((OrderManager.create rej minp maxp).runTrace es).current_volume ≤ maxp ∧
    ((s.onBuySignal p v u).2 =
      if isVolumeEqual s.current_volume s.max_position ∨
          min v (s.max_position - s.current_volume) ≤ 0 then none
      else some ⟨OrderSide.Buy, p, min v (s.max_position - s.current_volume)⟩) ∧
    ((s.onSellSignal p v u).2 =
      if isVolumeEqual s.current_volume s.min_position ∨
          min v (s.current_volume - s.min_position) ≤ 0 then none
      else some ⟨OrderSide.Sell, p, min v (s.current_volume - s.min_position)⟩) := by
  obtain ⟨-, -, -, -, g5, g6⟩ :=
    runTrace_invariant minp maxp es (OrderManager.create rej minp maxp)
      rfl rfl rfl rfl hmin hmax
  exact ⟨g5, g6, onBuySignal_submits s p v u, onSellSignal_submits s p v u⟩

/-- Witness for `position_bounds_and_clamping`: bounds `[-1000, 1000]`, a
two-signal trace, and a buy signal for volume 5 from the initial state. -/
theorem position_bounds_and_clamping_witness :
    (-1000 : ℚ) ≤ ((OrderManager.create 0 (-1000) 1000).runTrace
        [SignalEvent.buy 10 5 50, SignalEvent.sell 10 2 50]).current_volume ∧
    ((OrderManager.create 0 (-1000) 1000).runTrace
        [SignalEvent.buy 10 5 50, SignalEvent.sell 10 2 50]).current_volume ≤ 1000 ∧
    (((OrderManager.create 0 (-1000) 1000).onBuySignal 10 5 50).2 =
      if isVolumeEqual (OrderManager.create 0 (-1000) 1000).current_volume
            (OrderManager.create 0 (-1000) 1000).max_position ∨
          min 5 ((OrderManager.create 0 (-1000) 1000).max_position -
              (OrderManager.create 0 (-1000) 1000).current_volume) ≤ 0 then none
      else some ⟨OrderSide.Buy, 10,
        min 5 ((OrderManager.create 0 (-1000) 1000).max_position -
          (OrderManager.create 0 (-1000) 1000).current_volume)⟩) ∧
    (((OrderManager.create 0 (-1000) 1000).onSellSignal 10 5 50).2 =
      if isVolumeEqual (OrderManager.create 0 (-1000) 1000).current_volume
            (OrderManager.create 0 (-1000) 1000).min_position ∨
          min 5 ((OrderManager.create 0 (-1000) 1000).current_volume -
              (OrderManager.create 0 (-1000) 1000).min_position) ≤ 0 then none
      else some ⟨OrderSide.Sell, 10,
        min 5 ((OrderManager.create 0 (-1000) 1000).current_volume -
          (OrderManager.create 0 (-1000) 1000).min_position)⟩) :=
  position_bounds_and_clamping 0 (-1000) 1000
    [SignalEvent.buy 10 5 50, SignalEvent.sell 10 2 50]
    (OrderManager.create 0 (-1000) 1000) 10 5 50
    (by norm_num) (by norm_num)

/-- C8: a buy or sell signal handled from a quiescent state resolves any
submission synchronously within the same call: when nothing is submitted the
state is completely untouched, and in every case, once the call returns, no
pending order entry and no queued venue event remains, and a submission has
been reconciled into exactly one new log record. -/
theorem synchronous_resolution (s : OrderManager) (p v u : ℚ)
    (ho : s.orders = []) (hq : s.exchange_api.pending_events = []) :
    (s.onBuySignal p v u).1.orders = [] ∧
    (s.onBuySignal p v u).1.exchange_api.pending_events = [] ∧
    ((s.onBuySignal p v u).2 = none → (s.onBuySignal p v u).1 = s) ∧
    ((s.onBuySignal p v u).2 ≠ none →
      (s.onBuySignal p v u).1.log.length = s.log.length + 1) ∧
    (s.onSellSignal p v u).1.orders = [] ∧
    (s.onSellSignal p v u).1.exchange_api.pending_events = [] ∧
    ((s.onSellSignal p v u).2 = none → (s.onSellSignal p v u).1 = s) ∧
    ((s.onSellSignal p v u).2 ≠ none →
      (s.onSellSignal p v u).1.log.length = s.log.length + 1) := by
  obtain ⟨b1, b2, -, -, -, b6, b7⟩ := onBuySignal_facts s p v u ho hq
  obtain ⟨s1, s2, -, -, -, s6, s7⟩ := onSellSignal_facts s p v u ho hq
  exact ⟨b1, b2, b6, b7, s1, s2, s6, s7⟩

/-- Witness for `synchronous_resolution`: a fresh order manager receiving a
buy signal for volume 5 at price 10, with venue draw 50. -/
theorem synchronous_resolution_witness :
    ((OrderManager.create 0 (-1000) 1000).onBuySignal 10 5 50).1.orders = [] ∧
    ((OrderManager.create 0 (-1000) 1000).onBuySignal 10 5
        50).1.exchange_api.pending_events = [] ∧
    (((OrderManager.create 0 (-1000) 1000).onBuySignal 10 5 50).2 = none →
      ((OrderManager.create 0 (-1000) 1000).onBuySignal 10 5 50).1 =
        OrderManager.create 0 (-1000) 1000) ∧
    (((OrderManager.create 0 (-1000) 1000).onBuySignal 10 5 50).2 ≠ none →
      ((OrderManager.create 0 (-1000) 1000).onBuySignal 10 5 50).1.log.length =
        (OrderManager.create 0 (-1000) 1000).log.length + 1) ∧
    ((OrderManager.create 0 (-1000) 1000).onSellSignal 10 5 50).1.orders = [] ∧
    ((OrderManager.create 0 (-1000) 1000).onSellSignal 10 5
        50).1.exchange_api.pending_events = [] ∧
    (((OrderManager.create 0 (-1000) 1000).onSellSignal 10 5 50).2 = none →
      ((OrderManager.create 0 (-1000) 1000).onSellSignal 10 5 50).1 =
        OrderManager.create 0 (-1000) 1000) ∧
    (((OrderManager.create 0 (-1000) 1000).onSellSignal 10 5 50).2 ≠ none →
      ((OrderManager.create 0 (-1000) 1000).onSellSignal 10 5 50).1.log.length =
        (OrderManager.create 0 (-1000) 1000).log.length + 1) :=
  synchronous_resolution (OrderManager.create 0 (-1000) 1000) 10 5 50 rfl rfl

/-- C6: a reply for a registered order updates realized PnL by
`-price*volume` on an executed buy and `+price*volume` on an executed sell,
moves the position by `+volume` resp. `-volume`, leaves both untouched on a
rejection, emits exactly one log record (with the total PnL at the order's
price), and discards the pending entry. -/
theorem reply_reconciliation (s : OrderManager) (id : ℕ) (ord : Order)
    (status : ReplyStatus) (err : String)
    (hreg : s.orders.find? (fun q => q.1 == id) = some (id, ord)) :
    (status = ReplyStatus.Executed → ord.side = OrderSide.Buy →
      (s.handleRequestReply id status err).pnl = s.pnl - ord.price * ord.volume ∧
      (s.handleRequestReply id status err).current_volume =
        s.current_volume + ord.volume) ∧
    (status = ReplyStatus.Executed → ord.side = OrderSide.Sell →
      (s.handleRequestReply id status err).pnl = s.pnl + ord.price * ord.volume ∧
      (s.handleRequestReply id status err).current_volume =
        s.current_volume - ord.volume) ∧
    (status = ReplyStatus.Rejected →
      (s.handleRequestReply id status err).pnl = s.pnl ∧
      (s.handleRequestReply id status err).current_volume = s.current_volume) ∧
    (s.handleRequestReply id status err).log =
      s.log ++ [⟨ord.side, ord.price, ord.volume, status, err,
        (s.handleRequestReply id status err).pnl +
          ord.price * (s.handleRequestReply id status err).current_volume⟩] ∧
    (s.handleRequestReply id status err).orders = eraseOrd s.orders id := by
  unfold OrderManager.handleRequestReply mapIndex
  rw [hreg]
  cases status <;> cases hside : ord.side <;>
    simp [OrderManager.fixOrder, OrderManager.getTotalPnL, hside] <;>
      first
        | (constructor <;> ring)
        | ring

/-- Witness for `reply_reconciliation`: a registered buy order of volume 2
at price 10 reported as executed. -/
theorem reply_reconciliation_witness :
    (((OrderManager.mk (ExchangeApi.mk [] 0 2) [(1, ⟨OrderSide.Buy, 10, 2⟩)]
          [] 0 0 (-1000) 1000).handleRequestReply 1 ReplyStatus.Executed "").pnl =
        0 - 10 * 2 ∧
      ((OrderManager.mk (ExchangeApi.mk [] 0 2) [(1, ⟨OrderSide.Buy, 10, 2⟩)]
          [] 0 0 (-1000) 1000).handleRequestReply 1
          ReplyStatus.Executed "").current_volume = 0 + 2) ∧
    ((OrderManager.mk (ExchangeApi.mk [] 0 2) [(1, ⟨OrderSide.Buy, 10, 2⟩)]
        [] 0 0 (-1000) 1000).handleRequestReply 1 ReplyStatus.Executed "").log =
      [] ++ [⟨OrderSide.Buy, 10, 2, ReplyStatus.Executed, "",
        ((OrderManager.mk (ExchangeApi.mk [] 0 2) [(1, ⟨OrderSide.Buy, 10, 2⟩)]
            [] 0 0 (-1000) 1000).handleRequestReply 1 ReplyStatus.Executed "").pnl +
          10 * ((OrderManager.mk (ExchangeApi.mk [] 0 2)
              [(1, ⟨OrderSide.Buy, 10, 2⟩)] [] 0 0 (-1000) 1000).handleRequestReply
              1 ReplyStatus.Executed "").current_volume⟩] ∧
    ((OrderManager.mk (ExchangeApi.mk [] 0 2) [(1, ⟨OrderSide.Buy, 10, 2⟩)]
        [] 0 0 (-1000) 1000).handleRequestReply 1 ReplyStatus.Executed "").orders =
      eraseOrd [(1, ⟨OrderSide.Buy, 10, 2⟩)] 1 := by
  obtain ⟨c1, -, -, c4, c5⟩ :=
    reply_reconciliation
      (OrderManager.mk (ExchangeApi.mk [] 0 2) [(1, ⟨OrderSide.Buy, 10, 2⟩)]
        [] 0 0 (-1000) 1000) 1 ⟨OrderSide.Buy, 10, 2⟩
      ReplyStatus.Executed "" (by decide)
  exact ⟨c1 rfl rfl, c4, c5⟩

/-- C7 evaluated: a reply whose identifier has no registered pending order
(here id 5 on a fresh order manager) leaves position, PnL and the (net)
pending map unchanged, but — because `orders_[id]` default-inserts — it does
emit one log record, for a value-initialized order: side `Buy`, price `0`,
volume `0`. -/
theorem unregistered_reply_logs_default :
    ((OrderManager.create 0 (-1000) 1000).handleRequestReply 5
        ReplyStatus.Executed "").pnl = 0 ∧
    ((OrderManager.create 0 (-1000) 1000).handleRequestReply 5
        ReplyStatus.Executed "").current_volume = 0 ∧
    ((OrderManager.create 0 (-1000) 1000).handleRequestReply 5
        ReplyStatus.Executed "").orders = [] ∧
    ((OrderManager.create 0 (-1000) 1000).handleRequestReply 5
        ReplyStatus.Executed "").log =
      [⟨OrderSide.Buy, 0, 0, ReplyStatus.Executed, "", 0⟩] := by
  refine ⟨?_, ?_, ?_, ?_⟩ <;>
    simp [OrderManager.handleRequestReply, OrderManager.create,
      ExchangeApi.create, mapIndex, Order.cppDefault, OrderManager.fixOrder,
      OrderManager.getTotalPnL, eraseOrd, List.find?]

/-- C5: after the first update, a tick whose timestamp does not exceed the
stored last-update time (`dt ≤ 0`) returns the current smoothed value and
leaves the whole filter state — stored value and stored time — unmodified. -/
theorem timeEMA_stale_tick_noop (ema : TimeEMA) (tick : Tick) (t0 : ℤ)
    (hlast : ema.last_time_update = some t0)
    (hdt : tick.timestamp - t0 ≤ 0) :
    ema.update tick = (ema, ema.current_ma_price) := by
  unfold TimeEMA.update
  rw [hlast]
  simp [hdt]

/-- Witness for `timeEMA_stale_tick_noop` at a concrete filter state and a
duplicate-timestamp tick. -/
theorem timeEMA_stale_tick_noop_witness :
    (TimeEMA.mk 100 (some 5) (-1)).update ⟨5, 42, 1⟩
      = (TimeEMA.mk 100 (some 5) (-1), 100) := by
  have h := timeEMA_stale_tick_noop (TimeEMA.mk 100 (some 5) (-1)) ⟨5, 42, 1⟩ 5
    rfl (by norm_num)
  simpa using h

/-- C10: before any update, `getCurrentPrice` of a freshly constructed
filter returns exactly `0`, whatever the configured period. -/
theorem timeEMA_initial_price_zero (period : ℤ) :
    (TimeEMA.create period).getCurrentPrice = 0 := rfl

/-- C4: an update after the first with positive time delta and positive
configured period computes `alpha = 1 - exp(-dt_sec / tau_sec)`, which lies
strictly in `(0, 1)`; the new stored value is
`old + alpha * (tick.price - old)`, the tick's timestamp is stored, and the
new value is returned. -/
theorem timeEMA_update_alpha (ema : TimeEMA) (tick : Tick) (t0 period : ℤ)
    (hlast : ema.last_time_update = some t0)
    (htau : ema.neg_inv_tau = -1 / nsToSec period)
    (hperiod : 0 < period)
    (hdt : 0 < tick.timestamp - t0) :
    0 < 1 - Real.exp (-(nsToSec (tick.timestamp - t0) / nsToSec period)) ∧
    1 - Real.exp (-(nsToSec (tick.timestamp - t0) / nsToSec period)) < 1 ∧
    (ema.update tick).1.current_ma_price =
      ema.current_ma_price +
        (1 - Real.exp (-(nsToSec (tick.timestamp - t0) / nsToSec period))) *
          (tick.price - ema.current_ma_price) ∧
    (ema.update tick).1.last_time_update = some tick.timestamp ∧
    (ema.update tick).2 = (ema.update tick).1.current_ma_price := by
  have hdtsec : 0 < nsToSec (tick.timestamp - t0) := by
    unfold nsToSec
    have : (0 : ℝ) < ((tick.timestamp - t0 : ℤ) : ℝ) := by exact_mod_cast hdt
    positivity
  have htausec : 0 < nsToSec period := by
    unfold nsToSec
    have : (0 : ℝ) < ((period : ℤ) : ℝ) := by exact_mod_cast hperiod
    positivity
  have harg : nsToSec (tick.timestamp - t0) * ema.neg_inv_tau =
      -(nsToSec (tick.timestamp - t0) / nsToSec period) := by
    rw [htau]; ring
  have hratio : 0 < nsToSec (tick.timestamp - t0) / nsToSec period :=
    div_pos hdtsec htausec
  have hexp_lt : Real.exp (-(nsToSec (tick.timestamp - t0) / nsToSec period)) < 1 :=
    Real.exp_lt_one_iff.mpr (by linarith)
  have hexp_pos : 0 < Real.exp (-(nsToSec (tick.timestamp - t0) / nsToSec period)) :=
    Real.exp_pos _
  refine ⟨by linarith, by linarith, ?_, ?_, ?_⟩ <;>
    · unfold TimeEMA.update
      rw [hlast]
      simp only [not_le.mpr hdt, if_neg, harg]
      simp [not_le.mpr hdt]

/-- Witness for `timeEMA_update_alpha`: filter with period 1 s, previous
value 100 at time 0, updated by a tick one second later at price 50. -/
theorem timeEMA_update_alpha_witness :
    0 < 1 - Real.exp (-(nsToSec ((1000000000 : ℤ) - 0) / nsToSec 1000000000)) ∧
    1 - Real.exp (-(nsToSec ((1000000000 : ℤ) - 0) / nsToSec 1000000000)) < 1 ∧
    ((TimeEMA.mk 100 (some 0) (-1 / nsToSec 1000000000)).update
        ⟨1000000000, 50, 1⟩).1.current_ma_price =
      100 + (1 - Real.exp (-(nsToSec ((1000000000 : ℤ) - 0) / nsToSec 1000000000))) * (50 - 100) ∧
    ((TimeEMA.mk 100 (some 0) (-1 / nsToSec 1000000000)).update
        ⟨1000000000, 50, 1⟩).1.last_time_update = some 1000000000 ∧
    ((TimeEMA.mk 100 (some 0) (-1 / nsToSec 1000000000)).update ⟨1000000000, 50, 1⟩).2 =
      ((TimeEMA.mk 100 (some 0) (-1 / nsToSec 1000000000)).update
        ⟨1000000000, 50, 1⟩).1.current_ma_price :=
  timeEMA_update_alpha (TimeEMA.mk 100 (some 0) (-1 / nsToSec 1000000000))
    ⟨1000000000, 50, 1⟩ 0 1000000000 rfl rfl (by norm_num) (by norm_num)

/-- C2: per tick, after both filters are updated, a buy signal carrying the
tick's price and volume is emitted iff the fast value now exceeds the slow
value and the previous state was `Slow`; a sell signal iff the fast value
does not exceed the slow value and the previous state was `Fast`; no signal
is ever emitted from the initial `None` state; and a signal is emitted
exactly when the determined higher-filter state changes. -/
theorem crossover_signal_iff (bot : EmaTradingBot) (tick : Tick) :
    ((bot.onTick tick).2 = some (Signal.buy tick.price tick.volume) ↔
      ((bot.fast_ema.update tick).1.getCurrentPrice >
          (bot.slow_ema.update tick).1.getCurrentPrice ∧
        bot.higher_ema = IndicatorHigher.Slow)) ∧
    ((bot.onTick tick).2 = some (Signal.sell tick.price tick.volume) ↔
      ((bot.fast_ema.update tick).1.getCurrentPrice ≤
          (bot.slow_ema.update tick).1.getCurrentPrice ∧
        bot.higher_ema = IndicatorHigher.Fast)) ∧
    (bot.higher_ema = IndicatorHigher.None → (bot.onTick tick).2 = none) ∧
    ((bot.onTick tick).2 = none ↔
      ((bot.onTick tick).1.higher_ema = bot.higher_ema ∨
        bot.higher_ema = IndicatorHigher.None)) := by
  by_cases hc : (bot.fast_ema.update tick).1.getCurrentPrice >
      (bot.slow_ema.update tick).1.getCurrentPrice <;>
    cases h : bot.higher_ema <;>
      simp [EmaTradingBot.onTick, hc, h]
  all_goals first
    | exact not_le.mpr hc
    | exact le_of_not_lt hc

/-- C9: on the very first tick, both freshly constructed filters adopt the
tick's price, the fast-greater-than-slow comparison is false, the state
becomes `Slow` (never `Fast`), and no signal is emitted. -/
theorem crossover_first_tick (fast_period slow_period : ℤ) (tick : Tick) :
    ((EmaTradingBot.create fast_period slow_period).onTick tick).1.higher_ema =
        IndicatorHigher.Slow ∧
    ((EmaTradingBot.create fast_period slow_period).onTick tick).2 = none ∧
    ((EmaTradingBot.create fast_period slow_period).onTick
        tick).1.fast_ema.current_ma_price = tick.price ∧
    ((EmaTradingBot.create fast_period slow_period).onTick
        tick).1.slow_ema.current_ma_price = tick.price := by
  simp [EmaTradingBot.onTick, EmaTradingBot.create, TimeEMA.create,
    TimeEMA.update, TimeEMA.getCurrentPrice]

end TradingSim
